import Mathlib

/-!
# A strided N-dimensional view model

Shallow embedding of the strided-view indexing model used by the
`elegant_efficient_numpy` tutorial: buffers, views (shape / strides /
element size / byte offset), raveling and unraveling of indices, and the
view operations (transpose, reshape, slice, materialize).

The tutorial's own `ravel` function is an exercise whose body is left
blank (only its `assert` tests are given), and the view operations are
exercised through NumPy; the definitions below are therefore modelled
from the specification's description of the strided-view model, with the
tutorial's concrete test values used as checkpoints.
-/

namespace NdView

/-- Modelled from the spec: the error kinds of the view model
(OutOfBounds, ShapeMismatch, RankMismatch). -/
inductive Err where
  | OutOfBounds
  | ShapeMismatch
  | RankMismatch
deriving DecidableEq, Repr

/-- Modelled from the spec: a Buffer is a contiguous byte-addressable
block of memory; we model it as its list of bytes. -/
structure Buffer where
  bytes : List Nat
deriving DecidableEq, Repr

/-- Modelled from the spec: the world of allocated Buffers; a buffer id
is an index into this list.  Operations that allocate append to it. -/
structure World where
  buffers : List Buffer
deriving DecidableEq, Repr

/-- Modelled from the spec: a StridedView describes how to interpret a
Buffer as an n-dimensional array: shape, per-dimension byte strides,
element size in bytes and starting byte offset. -/
structure View where
  bufferId : Nat
  shape : List Nat
  strides : List Nat
  element_size : Nat
  byte_offset : Nat
deriving DecidableEq, Repr

/-- Modelled from the spec: `ravel(multi_index, shape)` returns the
row-major flat index `sum over i of multi_index[i] * product(shape[i+1:])`
(the tutorial's exercise generalized to arbitrary rank). -/
def ravel : List Nat → List Nat → Nat
  | i :: is, _ :: ss => i * ss.prod + ravel is ss
  | _, _ => 0

/-- Modelled from the spec: `unravel(flat_index, shape)` decomposes the
flat index by successive division and modulo against the
trailing-dimension products, most-significant dimension first. -/
def unravel (f : Nat) : List Nat → List Nat
  | [] => []
  | _ :: ss => f / ss.prod :: unravel (f % ss.prod) ss

/-- The spec's formula for `ravel`, written as a sum over dimension
indices, for comparison with the recursive definition. -/
def ravelFormula (m s : List Nat) : Nat :=
  ((List.range s.length).map (fun i => m.getD i 0 * ((s.drop (i + 1)).prod))).sum

/-- Pointwise strict bound of a multi-index by a shape, including the
rank check: every `m[i]` lies in `[0, s[i])`. -/
def allLt : List Nat → List Nat → Bool
  | [], [] => true
  | i :: is, s :: ss => decide (i < s) && allLt is ss
  | _, _ => false

/-- Modelled from the spec: canonical row-major ("C-order") strides for
a shape: `strides[i] = element_size * product(shape[i+1:])`. -/
def cStrides (es : Nat) : List Nat → List Nat
  | [] => []
  | _ :: ss => es * ss.prod :: cStrides es ss

/-- Helper for `fStrides`: carries the accumulated product of the
leading dimensions. -/
def fAux (acc : Nat) : List Nat → List Nat
  | [] => []
  | s :: ss => acc :: fAux (acc * s) ss

/-- Modelled from the spec: canonical column-major ("F-order") strides
for a shape: `strides[i] = element_size * product(shape[:i])`. -/
def fStrides (es : Nat) (shape : List Nat) : List Nat :=
  fAux es shape

/-- A View is contiguous in row-major order iff its strides are the
canonical row-major strides for its shape. -/
def isCContiguous (v : View) : Prop :=
  v.strides = cStrides v.element_size v.shape

instance (v : View) : Decidable (isCContiguous v) := by
  unfold isCContiguous; infer_instance

/-- A View is contiguous in column-major order iff its strides are the
canonical column-major strides for its shape. -/
def isFContiguous (v : View) : Prop :=
  v.strides = fStrides v.element_size v.shape

instance (v : View) : Decidable (isFContiguous v) := by
  unfold isFContiguous; infer_instance

/-- Modelled from the spec: byte address of a multi-index through a
view: `byte_offset + sum(idx[i] * strides[i])`. -/
def address (v : View) (idx : List Nat) : Nat :=
  v.byte_offset + (List.zipWith (· * ·) idx v.strides).sum

/-- Read the bytes of the element a multi-index denotes, through a
view, from the world's buffer. -/
def readElem (w : World) (v : View) (idx : List Nat) : List Nat :=
  ((w.buffers.getD v.bufferId ⟨[]⟩).bytes.drop (address v idx)).take v.element_size

/-- The bytes of element number `k` of a buffer holding elements of
`es` bytes each. -/
def bufElem (b : Buffer) (es k : Nat) : List Nat :=
  (b.bytes.drop (es * k)).take es

/-- The logical contents of a 2-dimensional view as a table of rows of
elements (each element its list of bytes). -/
def table2 (w : World) (v : View) (r c : Nat) : List (List (List Nat)) :=
  (List.range r).map (fun i => (List.range c).map (fun j => readElem w v [i, j]))

/-- Modelled from the spec: checked raveling; rejects a multi-index of
the wrong rank or outside the shape. -/
def ravelE (m s : List Nat) : Except Err Nat :=
  if m.length ≠ s.length then .error .RankMismatch
  else if allLt m s then .ok (ravel m s) else .error .OutOfBounds

/-- Modelled from the spec: checked unraveling; requires
`flat_index < product(shape)`. -/
def unravelE (f : Nat) (s : List Nat) : Except Err (List Nat) :=
  if f < s.prod then .ok (unravel f s) else .error .OutOfBounds

/-- Modelled from the spec: `index(view, multi_index)` returns the byte
address of the element, failing with OutOfBounds when any component of
the multi-index leaves the shape. -/
def index (v : View) (m : List Nat) : Except Err Nat :=
  if m.length ≠ v.shape.length then .error .RankMismatch
  else if allLt m v.shape then .ok (address v m) else .error .OutOfBounds

/-- A permutation of the axes of a rank-`n` view: `n` pairwise distinct
entries, all below `n`. -/
def isPerm (p : List Nat) (n : Nat) : Prop :=
  p.length = n ∧ p.Nodup ∧ ∀ x ∈ p, x < n

instance (p : List Nat) (n : Nat) : Decidable (isPerm p n) := by
  unfold isPerm; infer_instance

/-- Apply an axis permutation to a metadata list. -/
def permute (xs : List Nat) (p : List Nat) : List Nat :=
  p.map (fun i => xs.getD i 0)

/-- The axis permutation that reverses all axes of a rank-`n` view. -/
def revPerm (n : Nat) : List Nat :=
  (List.range n).reverse

/-- Modelled from the spec: `transpose(view, permutation)` permutes
shape and strides, keeping buffer, byte offset and element size; an
invalid permutation fails with RankMismatch. -/
def transposeP (v : View) (p : List Nat) : Except Err View :=
  if isPerm p v.shape.length then
    .ok ⟨v.bufferId, permute v.shape p, permute v.strides p,
         v.element_size, v.byte_offset⟩
  else .error .RankMismatch

/-- Modelled from the spec and the tutorial's own `transpose`: the
default transpose reverses the shape and the strides. -/
def transpose (v : View) : View :=
  ⟨v.bufferId, v.shape.reverse, v.strides.reverse, v.element_size, v.byte_offset⟩

/-- The row-major traversal of a view's logical contents: the bytes of
its elements in flat-index order, read through the view's addressing. -/
def materializeBytes (w : World) (v : View) : List Nat :=
  ((List.range v.shape.prod).map (fun k => readElem w v (unravel k v.shape))).flatten

/-- Modelled from the spec: `reshape(view, new_shape)`.  Fails with
ShapeMismatch when the element counts differ; if the view is row-major
contiguous, returns a metadata-only view over the same buffer with
canonical strides for the new shape; otherwise allocates a fresh buffer,
copies the elements in row-major traversal order read through the
source view's addressing, and returns a canonical view over it. -/
def reshape (w : World) (v : View) (ns : List Nat) : World × Except Err View :=
  if ns.prod ≠ v.shape.prod then (w, .error .ShapeMismatch)
  else if isCContiguous v then
    (w, .ok ⟨v.bufferId, ns, cStrides v.element_size ns,
             v.element_size, v.byte_offset⟩)
  else
    ({ buffers := w.buffers ++ [⟨materializeBytes w v⟩] },
     .ok ⟨w.buffers.length, ns, cStrides v.element_size ns, v.element_size, 0⟩)

/-- Per-dimension slice ranges are valid: `start ≤ stop ≤ dim` and a
positive step. -/
def sliceOk : List (Nat × Nat × Nat) → List Nat → Bool
  | [], [] => true
  | (st, sp, k) :: rs, s :: ss =>
      decide (st ≤ sp) && decide (sp ≤ s) && decide (0 < k) && sliceOk rs ss
  | _, _ => false

/-- Modelled from the spec: `slice(view, ranges)` with per-dimension
half-open ranges and steps: `shape[i] = ceil((stop-start)/step)`,
`strides[i] = strides[i]*step`, and the byte offset advances by
`sum(start[i]*strides[i])`. -/
def slice (v : View) (rs : List (Nat × Nat × Nat)) : Except Err View :=
  if rs.length ≠ v.shape.length then .error .RankMismatch
  else if sliceOk rs v.shape then
    .ok ⟨v.bufferId,
         List.zipWith (fun r _ => (r.2.1 - r.1 + r.2.2 - 1) / r.2.2) rs v.shape,
         List.zipWith (fun r str => str * r.2.2) rs v.strides,
         v.element_size,
         v.byte_offset + (List.zipWith (fun r str => r.1 * str) rs v.strides).sum⟩
  else .error .OutOfBounds

/-- Modelled from the spec: `materialize(view)` unconditionally
allocates a fresh buffer, copies every element in row-major order, and
returns a canonical row-major view over it. -/
def materialize (w : World) (v : View) : World × View :=
  ({ buffers := w.buffers ++ [⟨materializeBytes w v⟩] },
   ⟨w.buffers.length, v.shape, cStrides v.element_size v.shape, v.element_size, 0⟩)

/-- `ravel` as a world transformer (it never touches the world). -/
def opRavel (w : World) (m s : List Nat) : World × Except Err Nat :=
  (w, ravelE m s)

/-- `unravel` as a world transformer (it never touches the world). -/
def opUnravel (w : World) (f : Nat) (s : List Nat) : World × Except Err (List Nat) :=
  (w, unravelE f s)

/-- `index` as a world transformer (it never touches the world). -/
def opIndex (w : World) (v : View) (m : List Nat) : World × Except Err Nat :=
  (w, index v m)

/-- `transpose` as a world transformer (it never touches the world). -/
def opTranspose (w : World) (v : View) (p : List Nat) : World × Except Err View :=
  (w, transposeP v p)

/-- `slice` as a world transformer (it never touches the world). -/
def opSlice (w : World) (v : View) (rs : List (Nat × Nat × Nat)) :
    World × Except Err View :=
  (w, slice v rs)

/-! ## Basic lemmas about raveling -/

theorem length_eq_of_allLt {m s : List Nat} (h : allLt m s = true) :
    m.length = s.length := by
  induction m generalizing s with
  | nil =>
    cases s with
    | nil => rfl
    | cons a ss => simp [allLt] at h
  | cons i is ih =>
    cases s with
    | nil => simp [allLt] at h
    | cons a ss =>
      simp only [allLt, Bool.and_eq_true] at h
      simp [ih h.2]

theorem prod_pos_of_allLt {m s : List Nat} (h : allLt m s = true) :
    0 < s.prod := by
  induction m generalizing s with
  | nil =>
    cases s with
    | nil => simp
    | cons a ss => simp [allLt] at h
  | cons i is ih =>
    cases s with
    | nil => simp [allLt] at h
    | cons a ss =>
      simp only [allLt, Bool.and_eq_true, decide_eq_true_eq] at h
      have hp := ih h.2
      have ha : 0 < a := Nat.lt_of_le_of_lt (Nat.zero_le i) h.1
      simpa [List.prod_cons] using Nat.mul_pos ha hp

theorem ravel_lt {m s : List Nat} (h : allLt m s = true) :
    ravel m s < s.prod := by
  induction m generalizing s with
  | nil =>
    cases s with
    | nil => simp [ravel]
    | cons a ss => simp [allLt] at h
  | cons i is ih =>
    cases s with
    | nil => simp [allLt] at h
    | cons a ss =>
      simp only [allLt, Bool.and_eq_true, decide_eq_true_eq] at h
      have hr := ih h.2
      have h1 : i * ss.prod + ravel is ss < (i + 1) * ss.prod := by
        rw [Nat.succ_mul]
        exact Nat.add_lt_add_left hr _
      have h2 : (i + 1) * ss.prod ≤ a * ss.prod :=
        Nat.mul_le_mul_right _ h.1
      simpa [ravel, List.prod_cons] using Nat.lt_of_lt_of_le h1 h2

theorem unravel_ravel_aux {m s : List Nat} (h : allLt m s = true) :
    unravel (ravel m s) s = m := by
  induction m generalizing s with
  | nil =>
    cases s with
    | nil => rfl
    | cons a ss => simp [allLt] at h
  | cons i is ih =>
    cases s with
    | nil => simp [allLt] at h
    | cons a ss =>
      simp only [allLt, Bool.and_eq_true, decide_eq_true_eq] at h
      have hP : 0 < ss.prod := prod_pos_of_allLt h.2
      have hr : ravel is ss < ss.prod := ravel_lt h.2
      have hdiv : (i * ss.prod + ravel is ss) / ss.prod = i := by
        rw [Nat.add_comm, Nat.add_mul_div_right _ _ hP, Nat.div_eq_of_lt hr,
          Nat.zero_add]
      have hmod : (i * ss.prod + ravel is ss) % ss.prod = ravel is ss := by
        rw [Nat.add_comm, Nat.add_mul_mod_self_right, Nat.mod_eq_of_lt hr]
      simp [ravel, unravel, hdiv, hmod, ih h.2]

theorem ravel_eq_formula {m s : List Nat} (hlen : m.length = s.length) :
    ravel m s = ravelFormula m s := by
  induction m generalizing s with
  | nil =>
    cases s with
    | nil => rfl
    | cons a ss => simp at hlen
  | cons i is ih =>
    cases s with
    | nil => simp at hlen
    | cons a ss =>
      simp only [List.length_cons, Nat.succ.injEq] at hlen
      have ihm := ih hlen
      simp [ravel, ravelFormula, List.range_succ_eq_map, List.map_map,
        Function.comp_def, Nat.succ_eq_add_one, List.getD_cons_succ,
        List.getD_cons_zero, List.drop_succ_cons] at ihm ⊢
      exact ihm

/-! ## Lemmas about axis permutations -/

theorem map_getD_range (xs : List Nat) :
    (List.range xs.length).map (fun i => xs.getD i 0) = xs := by
  induction xs with
  | nil => rfl
  | cons a l ih =>
    simp only [List.length_cons, List.range_succ_eq_map, List.map_cons,
      List.map_map, Function.comp_def, Nat.succ_eq_add_one,
      List.getD_cons_succ, List.getD_cons_zero, List.cons.injEq, true_and]
    exact ih

theorem permute_revPerm (xs : List Nat) :
    permute xs (revPerm xs.length) = xs.reverse := by
  unfold permute revPerm
  rw [List.map_reverse, map_getD_range]

theorem permute_revPerm_of_length {xs : List Nat} {n : Nat}
    (h : xs.length = n) : permute xs (revPerm n) = xs.reverse := by
  subst h; exact permute_revPerm xs

theorem isPerm_revPerm (n : Nat) : isPerm (revPerm n) n := by
  refine ⟨by simp [revPerm], by simp [revPerm, List.nodup_range], ?_⟩
  intro x hx
  simpa [revPerm] using hx

/-! ## Claim theorems: raveling and transposition -/

/-- C1: for every multi-index and shape of equal rank with
`0 ≤ multi_index[i] < shape[i]` for all `i`, `ravel` equals the sum over
`i` of `multi_index[i] * product(shape[i+1:])`; in particular the
tutorial's five test values hold. -/
theorem ravel_matches_spec_formula :
    (∀ m s : List Nat, allLt m s = true → ravel m s = ravelFormula m s) ∧
    ravel [2, 3] [4, 4] = 11 ∧ ravel [2, 3] [4, 8] = 19 ∧
    ravel [0, 0] [1, 1] = 0 ∧ ravel [3, 3] [4, 4] = 15 ∧
    ravel [3465, 18923] [10000, 20000] = 69318923 := by
  refine ⟨fun m s h => ravel_eq_formula (length_eq_of_allLt h),
    ?_, ?_, ?_, ?_, ?_⟩ <;> norm_num [ravel]

/-- Witness for C1: the formula equality evaluated at the concrete
index `(2,3)` and shape `(4,4)`. -/
theorem ravel_matches_spec_formula_witness :
    allLt [2, 3] [4, 4] = true ∧
    ravel [2, 3] [4, 4] = ravelFormula [2, 3] [4, 4] :=
  ⟨by decide, ravel_matches_spec_formula.1 [2, 3] [4, 4] (by decide)⟩

/-- C5: for every valid shape and in-range multi-index,
`unravel (ravel m s) s = m` (the round-trip property). -/
theorem unravel_ravel_roundtrip (m s : List Nat) (h : allLt m s = true) :
    unravel (ravel m s) s = m :=
  unravel_ravel_aux h

/-- Witness for C5: the round-trip at index `(1,2)`, shape `(3,4)`. -/
theorem unravel_ravel_roundtrip_witness :
    allLt [1, 2] [3, 4] = true ∧ unravel (ravel [1, 2] [3, 4]) [3, 4] = [1, 2] :=
  ⟨by decide, unravel_ravel_roundtrip [1, 2] [3, 4] (by decide)⟩

/-- C6: applying the default (axis-reversing) transpose twice yields a
view with the same shape and strides as the original. -/
theorem transpose_involution (v : View) :
    (transpose (transpose v)).shape = v.shape ∧
    (transpose (transpose v)).strides = v.strides := by
  simp [transpose]

/-- C4: `transpose(view, permutation)` permutes shape and strides and
keeps buffer, byte offset and element size, touching no buffer
contents; the default transpose coincides with applying the
axis-reversing permutation. -/
theorem transpose_permutes_metadata :
    (∀ (v : View) (p : List Nat), isPerm p v.shape.length →
        transposeP v p = .ok ⟨v.bufferId, permute v.shape p,
          permute v.strides p, v.element_size, v.byte_offset⟩) ∧
    (∀ (w : World) (v : View) (p : List Nat), (opTranspose w v p).1 = w) ∧
    (∀ v : View, v.strides.length = v.shape.length →
        transposeP v (revPerm v.shape.length) = .ok (transpose v)) := by
  refine ⟨fun v p hp => by simp [transposeP, hp], fun w v p => rfl,
    fun v h => ?_⟩
  have hperm := isPerm_revPerm v.shape.length
  simp [transposeP, hperm, transpose, permute_revPerm,
    permute_revPerm_of_length h]

/-- Witness for C4: the axis swap `[1,0]` on a concrete 4×8 view. -/
theorem transpose_permutes_metadata_witness :
    isPerm [1, 0] ([4, 8] : List Nat).length ∧
    transposeP ⟨0, [4, 8], [64, 8], 8, 0⟩ [1, 0] =
      .ok ⟨0, permute [4, 8] [1, 0], permute [64, 8] [1, 0], 8, 0⟩ :=
  ⟨by decide,
   transpose_permutes_metadata.1 ⟨0, [4, 8], [64, 8], 8, 0⟩ [1, 0] (by decide)⟩

/-! ## Claim theorems: reshape -/

/-- C3: reshaping a row-major-contiguous view with a matching element
count is metadata-only: the world is untouched and the result is a view
over the same buffer with canonical row-major strides for the new
shape. -/
theorem reshape_contiguous_is_metadata_only (w : World) (v : View)
    (ns : List Nat) (hc : isCContiguous v) (hp : ns.prod = v.shape.prod) :
    reshape w v ns =
      (w, .ok ⟨v.bufferId, ns, cStrides v.element_size ns,
               v.element_size, v.byte_offset⟩) := by
  unfold reshape
  rw [if_neg (by simp [hp]), if_pos hc]

/-- Witness for C3: reshaping a contiguous 4×4 view of 8-byte elements
to 2×8. -/
theorem reshape_contiguous_is_metadata_only_witness :
    isCContiguous ⟨0, [4, 4], [32, 8], 8, 0⟩ ∧
    ([2, 8] : List Nat).prod = ([4, 4] : List Nat).prod ∧
    reshape ⟨[]⟩ ⟨0, [4, 4], [32, 8], 8, 0⟩ [2, 8] =
      (⟨[]⟩, .ok ⟨0, [2, 8], cStrides 8 [2, 8], 8, 0⟩) :=
  ⟨by decide, by decide,
   reshape_contiguous_is_metadata_only ⟨[]⟩ ⟨0, [4, 4], [32, 8], 8, 0⟩ [2, 8]
     (by decide) (by decide)⟩

/-- C7: `reshape` fails with ShapeMismatch exactly when the new shape's
element count differs from the view's, and succeeds with a view of the
requested shape when the counts agree. -/
theorem reshape_shape_mismatch_iff :
    (∀ (w : World) (v : View) (ns : List Nat),
        (reshape w v ns).2 = .error .ShapeMismatch ↔
          ns.prod ≠ v.shape.prod) ∧
    (∀ (w : World) (v : View) (ns : List Nat), ns.prod = v.shape.prod →
        ∃ v' : View, (reshape w v ns).2 = .ok v' ∧ v'.shape = ns) := by
  constructor
  · intro w v ns
    unfold reshape
    by_cases h : ns.prod = v.shape.prod
    · rw [if_neg (by simp [h])]
      by_cases hc : isCContiguous v
      · rw [if_pos hc]; simp [h]
      · rw [if_neg hc]; simp [h]
    · rw [if_pos h]; simp [h]
  · intro w v ns h
    unfold reshape
    rw [if_neg (by simp [h])]
    by_cases hc : isCContiguous v
    · rw [if_pos hc]; exact ⟨_, rfl, rfl⟩
    · rw [if_neg hc]; exact ⟨_, rfl, rfl⟩

/-- Witness for C7: a matching-count reshape of a 1-dimensional view
succeeds. -/
theorem reshape_shape_mismatch_iff_witness :
    ([5] : List Nat).prod = (([5] : List Nat)).prod ∧
    ∃ v' : View, (reshape ⟨[]⟩ ⟨0, [5], [8], 8, 0⟩ [5]).2 = .ok v' ∧
      v'.shape = [5] :=
  ⟨rfl, reshape_shape_mismatch_iff.2 ⟨[]⟩ ⟨0, [5], [8], 8, 0⟩ [5] rfl⟩

/-! ## Claim theorems: atomicity, the copy scenario, broadcast views -/

/-- C8: every operation either succeeds or fails atomically: the pure
operations never touch the world, a failing `reshape` returns the world
unchanged, and the allocating operations (`reshape` on the copy path,
`materialize`) only append fresh buffers, leaving every existing buffer
intact. -/
theorem operations_atomic :
    (∀ (w : World) (m s : List Nat), (opRavel w m s).1 = w) ∧
    (∀ (w : World) (f : Nat) (s : List Nat), (opUnravel w f s).1 = w) ∧
    (∀ (w : World) (v : View) (m : List Nat), (opIndex w v m).1 = w) ∧
    (∀ (w : World) (v : View) (p : List Nat), (opTranspose w v p).1 = w) ∧
    (∀ (w : World) (v : View) (rs : List (Nat × Nat × Nat)),
        (opSlice w v rs).1 = w) ∧
    (∀ (w : World) (v : View) (ns : List Nat) (e : Err),
        (reshape w v ns).2 = .error e → (reshape w v ns).1 = w) ∧
    (∀ (w : World) (v : View) (ns : List Nat),
        ∃ bs, (reshape w v ns).1.buffers = w.buffers ++ bs) ∧
    (∀ (w : World) (v : View),
        ∃ bs, (materialize w v).1.buffers = w.buffers ++ bs) := by
  refine ⟨fun _ _ _ => rfl, fun _ _ _ => rfl, fun _ _ _ => rfl,
    fun _ _ _ => rfl, fun _ _ _ => rfl, ?_, ?_, fun w v => ⟨_, rfl⟩⟩
  · intro w v ns e he
    unfold reshape at he ⊢
    by_cases h : ns.prod = v.shape.prod
    · rw [if_neg (by simp [h])] at he ⊢
      by_cases hc : isCContiguous v
      · rw [if_pos hc]
      · rw [if_neg hc] at he
        simp at he
    · rw [if_pos h]
  · intro w v ns
    unfold reshape
    by_cases h : ns.prod = v.shape.prod
    · rw [if_neg (by simp [h])]
      by_cases hc : isCContiguous v
      · rw [if_pos hc]
        exact ⟨[], by simp⟩
      · rw [if_neg hc]
        exact ⟨[⟨materializeBytes w v⟩], rfl⟩
    · rw [if_pos h]
      exact ⟨[], by simp⟩

/-- Witness for C8: a `reshape` with mismatched element counts fails and
leaves the (empty) world unchanged. -/
theorem operations_atomic_witness :
    (reshape ⟨[]⟩ ⟨0, [2, 3], [3, 1], 1, 0⟩ [7]).2 = .error .ShapeMismatch ∧
    (reshape ⟨[]⟩ ⟨0, [2, 3], [3, 1], 1, 0⟩ [7]).1 = ⟨[]⟩ :=
  ⟨rfl, operations_atomic.2.2.2.2.2.1 ⟨[]⟩ ⟨0, [2, 3], [3, 1], 1, 0⟩ [7]
    .ShapeMismatch rfl⟩

/-- C2: for the buffer `[1,2,3,4,5,6]` viewed row-major as `(2,3)`,
transposing yields a `(3,2)` view with logical contents
`[[1,4],[2,5],[3,6]]`, and reshaping that transposed view to `(2,3)`
allocates a fresh buffer (buffer id `1`, different from the source's
`0`) holding `[1,4,2,5,3,6]`, with logical contents
`[[1,4,2],[5,3,6]]`. -/
theorem transpose_then_reshape_copies :
    (transpose ⟨0, [2, 3], [3, 1], 1, 0⟩).shape = [3, 2] ∧
    table2 ⟨[⟨[1, 2, 3, 4, 5, 6]⟩]⟩ (transpose ⟨0, [2, 3], [3, 1], 1, 0⟩) 3 2 =
      [[[1], [4]], [[2], [5]], [[3], [6]]] ∧
    (reshape ⟨[⟨[1, 2, 3, 4, 5, 6]⟩]⟩
        (transpose ⟨0, [2, 3], [3, 1], 1, 0⟩) [2, 3]).2 =
      .ok ⟨1, [2, 3], [3, 1], 1, 0⟩ ∧
    (⟨1, [2, 3], [3, 1], 1, 0⟩ : View).bufferId ≠
      (⟨0, [2, 3], [3, 1], 1, 0⟩ : View).bufferId ∧
    (reshape ⟨[⟨[1, 2, 3, 4, 5, 6]⟩]⟩
        (transpose ⟨0, [2, 3], [3, 1], 1, 0⟩) [2, 3]).1.buffers.getD 1 ⟨[]⟩ =
      ⟨[1, 4, 2, 5, 3, 6]⟩ ∧
    table2 (reshape ⟨[⟨[1, 2, 3, 4, 5, 6]⟩]⟩
        (transpose ⟨0, [2, 3], [3, 1], 1, 0⟩) [2, 3]).1
      ⟨1, [2, 3], [3, 1], 1, 0⟩ 2 3 = [[[1], [4], [2]], [[5], [3], [6]]] :=
  ⟨rfl, rfl, rfl, by decide, rfl, rfl⟩

/-! ## Claim theorems: contiguity states and zero strides -/

/-- C9 counterexample: the 1-dimensional view with shape `[2]`, strides
`[8]` and 8-byte elements is simultaneously row-major-contiguous and
column-major-contiguous, so a view is not always in exactly one of the
three contiguity states. -/
theorem both_contiguity_flags_example :
    isCContiguous ⟨0, [2], [8], 8, 0⟩ ∧ isFContiguous ⟨0, [2], [8], 8, 0⟩ :=
  ⟨rfl, rfl⟩

/-- C9 (amended): for a view of rank at least 2 with positive element
size and more than one logical element, at most one of the two
contiguity predicates holds (rank 0, rank 1 and all-ones shapes can
satisfy both simultaneously). -/
theorem contiguity_exclusive (v : View) (hes : 0 < v.element_size)
    (hrank : 2 ≤ v.shape.length) (hcard : 1 < v.shape.prod) :
    ¬(isCContiguous v ∧ isFContiguous v) := by
  obtain ⟨bid, shape, strides, es, off⟩ := v
  rintro ⟨hC, hF⟩
  simp only [isCContiguous, isFContiguous] at hC hF
  match shape, hrank with
  | s0 :: s1 :: rest, _ =>
    have heq : cStrides es (s0 :: s1 :: rest) = fStrides es (s0 :: s1 :: rest) :=
      hC.symm.trans hF
    simp only [cStrides, fStrides, fAux, List.prod_cons, List.cons.injEq] at heq
    obtain ⟨h1, h2, -⟩ := heq
    have h1' : s1 * rest.prod = 1 :=
      Nat.eq_of_mul_eq_mul_left hes (by simpa using h1)
    have h2' : rest.prod = s0 :=
      Nat.eq_of_mul_eq_mul_left hes h2
    have hs1 : s1 = 1 := Nat.eq_one_of_mul_eq_one_right h1'
    have hrest : rest.prod = 1 := Nat.eq_one_of_mul_eq_one_left h1'
    simp only [List.prod_cons] at hcard
    rw [hs1, hrest] at hcard
    rw [hrest] at h2'
    omega

/-- Witness for C9's amended statement: the row-major 2×3 view with
1-byte elements is not also column-major-contiguous. -/
theorem contiguity_exclusive_witness :
    0 < (⟨0, [2, 3], [3, 1], 1, 0⟩ : View).element_size ∧
    2 ≤ (⟨0, [2, 3], [3, 1], 1, 0⟩ : View).shape.length ∧
    1 < (⟨0, [2, 3], [3, 1], 1, 0⟩ : View).shape.prod ∧
    ¬(isCContiguous ⟨0, [2, 3], [3, 1], 1, 0⟩ ∧
      isFContiguous ⟨0, [2, 3], [3, 1], 1, 0⟩) :=
  ⟨by decide, by decide, by decide,
   contiguity_exclusive ⟨0, [2, 3], [3, 1], 1, 0⟩ (by decide) (by decide)
     (by decide)⟩

/-- C10: over a 40-byte buffer (five 8-byte elements), the view of
shape `(5, 100_000_000_000)` with strides `(8, 0)` addresses `(i, j)`
at byte `8*i` for every `i < 5`, `j < 100_000_000_000`; every such
address stays inside the buffer although the view's logical element
count exceeds the buffer's element count, and the element read at
`(i, j)` is buffer element `i`. -/
theorem zero_stride_broadcast_view (bytes : List Nat) (i j : Nat)
    (hb : bytes.length = 40) (hi : i < 5) (_hj : j < 100000000000) :
    address ⟨0, [5, 100000000000], [8, 0], 8, 0⟩ [i, j] = 8 * i ∧
    address ⟨0, [5, 100000000000], [8, 0], 8, 0⟩ [i, j] +
      (⟨0, [5, 100000000000], [8, 0], 8, 0⟩ : View).element_size ≤
        bytes.length ∧
    readElem ⟨[⟨bytes⟩]⟩ ⟨0, [5, 100000000000], [8, 0], 8, 0⟩ [i, j] =
      bufElem ⟨bytes⟩ 8 i ∧
    bytes.length / 8 < (⟨0, [5, 100000000000], [8, 0], 8, 0⟩ : View).shape.prod := by
  have haddr : address ⟨0, [5, 100000000000], [8, 0], 8, 0⟩ [i, j] = 8 * i := by
    simp only [address, List.zipWith_cons_cons, List.zipWith_nil_right,
      List.sum_cons, List.sum_nil]
    omega
  refine ⟨haddr, ?_, ?_, ?_⟩
  · rw [haddr, hb]
    show 8 * i + 8 ≤ 40
    omega
  · simp only [readElem, bufElem, haddr, List.getD_cons_zero]
  · rw [hb]
    norm_num [List.prod_cons]

/-- Witness for C10: the broadcast view's addressing at `(3, 19302839)`
over a concrete 40-byte buffer. -/
theorem zero_stride_broadcast_view_witness :
    (List.replicate 40 0).length = 40 ∧ (3 : Nat) < 5 ∧
    (19302839 : Nat) < 100000000000 ∧
    address ⟨0, [5, 100000000000], [8, 0], 8, 0⟩ [3, 19302839] = 8 * 3 :=
  ⟨by decide, by decide, by decide,
   (zero_stride_broadcast_view (List.replicate 40 0) 3 19302839 (by decide)
     (by decide) (by decide)).1⟩
